import Mathlib

/-!
Shallow embedding of `epubToImg.py` (EPUB smart splitter): the clean-break
locator, the pagination loop of `process_html`, the binarizer, the global
page index threading of `process`, and the output-directory precondition
check of `main`.

Conventions of the embedding:
* A grayscale capture is a `GrayImage`: width, height, and a pixel function
  (x, y) ↦ luminance value (0-255 in practice; the code never relies on the
  range).
* The rendering surface is abstracted as a deterministic capture oracle
  `capture : Nat → Nat → GrayImage` mapping (scroll top, viewport height) to
  the grayscale screenshot taken there, exactly the data the Python code
  extracts from playwright (`page.screenshot()` after `set_viewport_size`
  and `scrollTop`).
* Python's `int(self.base_height * 0.3)` is modelled as `base_height * 3 / 10`
  (natural floor division); for every height below 2*10^15 the double-precision
  product `h * 0.3` truncates to exactly `⌊3h/10⌋` (the only boundary cases are
  multiples of 10, where the product rounds to the exact integer), so the
  model is faithful on the whole realistic input range.
* Loops are embedded as structural recursions: the candidate scan of
  `find_clean_break` recurses on the number of remaining candidates, and the
  `while current_top < total_height` loop of `process_html` recurses on fuel
  (fuel `total_height` is shown sufficient under the forward-progress
  hypothesis).
-/

namespace EpubToImg

/-- A grayscale bitmap: `pixel x y` is the luminance at column `x`, row `y`. -/
structure GrayImage where
  width : Nat
  height : Nat
  pixel : Nat → Nat → Nat

/-- The pixel data of `image.crop((0, height-1, width, height))`: the bottom
row of the image, left to right. -/
def bottom_row (img : GrayImage) : List Nat :=
  (List.range img.width).map fun x => img.pixel x (img.height - 1)

/-- `is_text_cut_off`: `any(pixel < self.threshold for pixel in bottom_row.getdata())`. -/
def is_text_cut_off (threshold : Nat) (img : GrayImage) : Bool :=
  (bottom_row img).any fun p => decide (p < threshold)

/-- `min_height = int(self.base_height * 0.3)` (see the header comment for
why floor division is the faithful model). -/
def min_height (base_height : Nat) : Nat :=
  base_height * 3 / 10

/-- The `for test_height in range(current_height, min_height - 1, -1)` loop of
`find_clean_break`, recursing on the number `k` of candidates still to test.
With `k` candidates left the next candidate is `minH + k - 1`, so the heights
are scanned in strictly decreasing order ending at `minH`. Returns the pair
(`best_height`, number of capture operations performed); each loop iteration
performs exactly one capture and one `is_text_cut_off` check. -/
def clean_break_go (threshold : Nat) (capture : Nat → Nat → GrayImage)
    (current_top best minH : Nat) : Nat → Nat × Nat
  | 0 => (best, 0)
  | k + 1 =>
      if is_text_cut_off threshold (capture current_top (minH + k)) then
        let r := clean_break_go threshold capture current_top best minH k
        (r.1, r.2 + 1)
      else
        (minH + k, 1)

/-- `find_clean_break(self, page, scroller, current_top, max_height)`.
`current_height = min(max_height, self.base_height)`; `best_height` starts at
`current_height` and the loop tests `current_height, current_height - 1, ...,
min_height` (empty when `current_height < min_height`), breaking at the first
candidate whose capture is not cut off.  Returns (`best_height`, number of
captures performed). -/
def find_clean_break (base_height threshold : Nat) (capture : Nat → Nat → GrayImage)
    (current_top max_height : Nat) : Nat × Nat :=
  let minH := min_height base_height
  let current_height := min max_height base_height
  clean_break_go threshold capture current_top current_height minH
    (current_height + 1 - minH)

/-- `screenshot.point(lambda p: 255 if p > self.threshold else 0, mode="1")`. -/
def binarize (threshold : Nat) (img : GrayImage) : GrayImage :=
  { img with pixel := fun x y => if threshold < img.pixel x y then 255 else 0 }

/-- Left-pad a string with the digit zero to width four: `f"{idx:04d}"`
(Python pads to a minimum field width of four). -/
def pad4 (s : String) : String :=
  String.mk (List.replicate (4 - s.length) '0') ++ s

/-- The output file name `f"{idx:04d}.png"`. -/
def page_filename (idx : Nat) : String :=
  pad4 (Nat.repr idx) ++ ".png"

/-- One emitted page: its global index, the file name it is saved under, the
scroll offset and accepted viewport height of its slice, and the binarized
image written to disk. -/
structure Page where
  idx : Nat
  filename : String
  top : Nat
  height : Nat
  image : GrayImage

/-- The `while current_top < total_height` loop of `process_html`, recursing
on fuel.  Each iteration computes `remaining_height = total_height -
current_top`, asks `find_clean_break` for the viewport height, captures the
final screenshot at (`current_top`, `viewport_height`), binarizes it, saves it
as page `idx`, then advances `current_top += viewport_height; idx += 1`.
Returns the emitted pages together with the final index. -/
def process_html_go (base_height threshold : Nat) (capture : Nat → Nat → GrayImage)
    (total_height : Nat) : Nat → Nat → Nat → List Page × Nat
  | 0, _, idx => ([], idx)
  | fuel + 1, current_top, idx =>
      if current_top < total_height then
        let remaining_height := total_height - current_top
        let viewport_height :=
          (find_clean_break base_height threshold capture current_top remaining_height).1
        let screenshot := capture current_top viewport_height
        let bw_image := binarize threshold screenshot
        let page : Page := ⟨idx, page_filename idx, current_top, viewport_height, bw_image⟩
        let rest := process_html_go base_height threshold capture total_height fuel
          (current_top + viewport_height) (idx + 1)
        (page :: rest.1, rest.2)
      else
        ([], idx)

/-- `process_html(self, page, html_path, start_idx)`: runs the pagination loop
from `current_top = 0` with fuel `total_height` (sufficient whenever every
accepted height is at least 1) and returns (emitted pages, final index). -/
def process_html (base_height threshold : Nat) (capture : Nat → Nat → GrayImage)
    (total_height start_idx : Nat) : List Page × Nat :=
  process_html_go base_height threshold capture total_height total_height 0 start_idx

/-- One content document of the spine, abstracted to the data the pagination
core consumes: its measured total scroll height and its capture oracle. -/
structure Doc where
  total_height : Nat
  capture : Nat → Nat → GrayImage

/-- The document loop of `process`: `idx = 0`, then
`idx = self.process_html(page, html_file, idx)` for each spine document, in
order, accumulating every saved page. -/
def process (base_height threshold : Nat) (docs : List Doc) : List Page × Nat :=
  docs.foldl
    (fun acc doc =>
      let r := process_html base_height threshold doc.capture doc.total_height acc.2
      (acc.1 ++ r.1, r.2))
    ([], 0)

/-- The precondition check of `main`:
`args.outdir.exists() and any(args.outdir.iterdir())` — `True` means the run
is rejected with `parser.error("Output directory must be empty")`. -/
def outdir_rejected (outdir_exists : Bool) (entries : List String) : Bool :=
  outdir_exists && !entries.isEmpty

/-- The top of `main` around the splitter run: reject before constructing the
splitter (so before any processing and before any page file is written) when
the output directory exists and is non-empty; otherwise run `process`. -/
def main_run (outdir_exists : Bool) (entries : List String) (base_height threshold : Nat)
    (docs : List Doc) : Except String (List Page × Nat) :=
  if outdir_rejected outdir_exists entries then
    Except.error "Output directory must be empty"
  else
    Except.ok (process base_height threshold docs)

/-- `tiling t T pages` holds when the (top, height) slices of `pages` exactly
tile the interval from `t` to `T`: the first page starts at `t`, every page
has positive height and ends no later than `T`, consecutive pages are
contiguous, and the last page ends exactly at `T`. -/
def tiling (t T : Nat) : List Page → Bool
  | [] => t == T
  | p :: ps =>
      (p.top == t) && decide (0 < p.height) && decide (t + p.height ≤ T) &&
        tiling (t + p.height) T ps

/-- Test oracle whose captures always have a dark bottom row (value 0), so
every candidate height is reported as cut off. -/
def capAllCut : Nat → Nat → GrayImage := fun _ h => ⟨1, h, fun _ _ => 0⟩

/-- Test oracle whose capture at viewport height `h` has a white bottom row
exactly when `h ≤ 7`: with threshold 5 the tallest clean candidate is 7. -/
def capClean7 : Nat → Nat → GrayImage := fun _ h => ⟨1, h, fun _ _ => if h ≤ 7 then 255 else 0⟩

/-- A placeholder page used only as the default of `List.getD`. -/
def dummyPage : Page := ⟨0, "", 0, 0, ⟨0, 0, fun _ _ => 0⟩⟩

/-- The first page emitted when paginating a 5-pixel-tall document rendered by
`capClean7` with base height 10 and threshold 5. -/
def pgW : Page := ((process_html 10 5 capClean7 5 0).1).getD 0 dummyPage

/-- A one-pixel image whose single pixel sits exactly at the default
threshold value 220. -/
def img220 : GrayImage := ⟨1, 1, fun _ _ => 220⟩

end EpubToImg

namespace EpubToImg

/-- Characterisation of the candidate scan `clean_break_go`: with `k`
candidates `minH, minH + 1, ..., minH + k - 1` still to test (scanned in
decreasing order), either every candidate's capture is cut off and the
initial `best` comes back unchanged, or the scan stops at the largest
candidate whose capture is clean, every taller candidate being cut off. -/
theorem clean_break_go_spec (threshold : Nat) (capture : Nat → Nat → GrayImage)
    (current_top best minH : Nat) : ∀ k : Nat,
    ((clean_break_go threshold capture current_top best minH k).1 = best ∧
      ∀ j, j < k → is_text_cut_off threshold (capture current_top (minH + j)) = true) ∨
    (∃ j, j < k ∧ is_text_cut_off threshold (capture current_top (minH + j)) = false ∧
      (clean_break_go threshold capture current_top best minH k).1 = minH + j ∧
      ∀ i, j < i → i < k → is_text_cut_off threshold (capture current_top (minH + i)) = true) := by
  intro k
  induction k with
  | zero => exact Or.inl ⟨rfl, fun j hj => absurd hj (Nat.not_lt_zero j)⟩
  | succ k ih =>
    cases hcut : is_text_cut_off threshold (capture current_top (minH + k)) with
    | false =>
      refine Or.inr ⟨k, Nat.lt_succ_self k, hcut, ?_, ?_⟩
      · simp [clean_break_go, hcut]
      · intro i h1 h2
        omega
    | true =>
      have hres : (clean_break_go threshold capture current_top best minH (k + 1)).1 =
          (clean_break_go threshold capture current_top best minH k).1 := by
        simp [clean_break_go, hcut]
      rcases ih with ⟨he, hall⟩ | ⟨j, hjk, hc, he, hmax⟩
      · refine Or.inl ⟨hres.trans he, fun j hj => ?_⟩
        rcases Nat.lt_succ_iff_lt_or_eq.mp hj with h | h
        · exact hall j h
        · exact h ▸ hcut
      · refine Or.inr ⟨j, Nat.lt_succ_of_lt hjk, hc, hres.trans he, fun i hji hik => ?_⟩
        rcases Nat.lt_succ_iff_lt_or_eq.mp hik with h | h
        · exact hmax i hji h
        · exact h ▸ hcut

/-- Each iteration of the candidate scan performs exactly one capture, so the
capture count is bounded by the number of candidates. -/
theorem clean_break_go_count (threshold : Nat) (capture : Nat → Nat → GrayImage)
    (current_top best minH : Nat) : ∀ k : Nat,
    (clean_break_go threshold capture current_top best minH k).2 ≤ k := by
  intro k
  induction k with
  | zero => exact Nat.le_refl 0
  | succ k ih =>
    cases hcut : is_text_cut_off threshold (capture current_top (minH + k)) with
    | false => simp [clean_break_go, hcut]
    | true => simpa [clean_break_go, hcut] using Nat.add_le_add_right ih 1

/-- Unfolding equation for `find_clean_break`. -/
theorem find_clean_break_eq (base_height threshold : Nat) (capture : Nat → Nat → GrayImage)
    (current_top max_height : Nat) :
    find_clean_break base_height threshold capture current_top max_height =
      clean_break_go threshold capture current_top (min max_height base_height)
        (min_height base_height) (min max_height base_height + 1 - min_height base_height) :=
  rfl

/-- The floor height never exceeds the base height. -/
theorem min_height_le_base (base_height : Nat) : min_height base_height ≤ base_height := by
  simp only [min_height]
  omega

/-- The height returned by the locator never exceeds
`min(max_height, base_height)`. -/
theorem find_clean_break_fst_le (base_height threshold : Nat)
    (capture : Nat → Nat → GrayImage) (current_top max_height : Nat) :
    (find_clean_break base_height threshold capture current_top max_height).1 ≤
      min max_height base_height := by
  rw [find_clean_break_eq]
  rcases clean_break_go_spec threshold capture current_top (min max_height base_height)
      (min_height base_height) (min max_height base_height + 1 - min_height base_height) with
    ⟨he, _⟩ | ⟨j, hj, _, he, _⟩
  · rw [he]
  · rw [he]
    omega

/-- When `max_height` is below the floor, the candidate range is empty: the
locator returns `min(max_height, base_height)` after zero captures. -/
theorem find_clean_break_collapsed (base_height threshold : Nat)
    (capture : Nat → Nat → GrayImage) (current_top max_height : Nat)
    (h : max_height < min_height base_height) :
    find_clean_break base_height threshold capture current_top max_height =
      (min max_height base_height, 0) := by
  have hb : min_height base_height ≤ base_height := min_height_le_base base_height
  have h1 : min max_height base_height = max_height := Nat.min_eq_left (by omega)
  rw [find_clean_break_eq, h1]
  have h0 : max_height + 1 - min_height base_height = 0 := by omega
  rw [h0]
  rfl

/-- Claim C1 counterexample: with `base_height = 10` (so `minHeight = 3`),
threshold 1 and a capture oracle whose bottom row is always dark, every
candidate height in `[minHeight, startHeight] = [3, 10]` is cut off, yet the
locator returns `10` (the start height, kept in `best_height`), not the
claimed `minHeight = 3`. -/
theorem no_clean_candidate_cex :
    min_height 10 = 3 ∧
    min_height 10 ≤ min 10 10 ∧
    (∀ h, h < 11 → min_height 10 ≤ h → h ≤ min 10 10 →
      is_text_cut_off 1 (capAllCut 0 h) = true) ∧
    (find_clean_break 10 1 capAllCut 0 10).1 ≠ min_height 10 := by
  decide

/-- Claim C1 (amended): when `startHeight = min(maxCandidateHeight,
baseHeight) ≥ minHeight` and no tested candidate in
`[minHeight, startHeight]` yields a clean bottom row, the returned height is
`startHeight` (the initial value of `best_height`), not `minHeight`. -/
theorem no_clean_candidate_returns_start (base_height threshold : Nat)
    (capture : Nat → Nat → GrayImage) (current_top max_height : Nat)
    (hstart : min_height base_height ≤ min max_height base_height)
    (hall : ∀ h, min_height base_height ≤ h → h ≤ min max_height base_height →
      is_text_cut_off threshold (capture current_top h) = true) :
    (find_clean_break base_height threshold capture current_top max_height).1 =
      min max_height base_height := by
  rw [find_clean_break_eq]
  rcases clean_break_go_spec threshold capture current_top (min max_height base_height)
      (min_height base_height) (min max_height base_height + 1 - min_height base_height) with
    ⟨he, _⟩ | ⟨j, hj, hc, _, _⟩
  · exact he
  · have hcut := hall (min_height base_height + j) (Nat.le_add_right ..) (by omega)
    rw [hc] at hcut
    exact absurd hcut Bool.false_ne_true

/-- Witness for `no_clean_candidate_returns_start` at `base_height = 10`,
threshold 1, the always-dark oracle, `current_top = 0`, `max_height = 10`. -/
theorem no_clean_candidate_returns_start_witness :
    (find_clean_break 10 1 capAllCut 0 10).1 = min 10 10 :=
  no_clean_candidate_returns_start 10 1 capAllCut 0 10 (by decide) (fun _ _ _ => rfl)

/-- Claim C2: when `startHeight = min(maxCandidateHeight, baseHeight) ≥
minHeight` and some candidate in `[minHeight, startHeight]` yields a capture
with a clean bottom row, the locator returns the largest such candidate: its
capture is clean, it lies in the range, and every taller in-range candidate
that is clean is bounded by it (the scan is decreasing and stops at the first
clean hit). -/
theorem first_clean_is_largest (base_height threshold : Nat)
    (capture : Nat → Nat → GrayImage) (current_top max_height : Nat)
    (hstart : min_height base_height ≤ min max_height base_height)
    (hex : ∃ h, min_height base_height ≤ h ∧ h ≤ min max_height base_height ∧
      is_text_cut_off threshold (capture current_top h) = false) :
    is_text_cut_off threshold
        (capture current_top
          (find_clean_break base_height threshold capture current_top max_height).1) = false ∧
    min_height base_height ≤
        (find_clean_break base_height threshold capture current_top max_height).1 ∧
    (find_clean_break base_height threshold capture current_top max_height).1 ≤
        min max_height base_height ∧
    ∀ h, min_height base_height ≤ h → h ≤ min max_height base_height →
      is_text_cut_off threshold (capture current_top h) = false →
      h ≤ (find_clean_break base_height threshold capture current_top max_height).1 := by
  rw [find_clean_break_eq]
  rcases clean_break_go_spec threshold capture current_top (min max_height base_height)
      (min_height base_height) (min max_height base_height + 1 - min_height base_height) with
    ⟨_, hall⟩ | ⟨j, hj, hc, he, hmax⟩
  · exfalso
    obtain ⟨h, h1, h2, h3⟩ := hex
    have hcut := hall (h - min_height base_height) (by omega)
    rw [show min_height base_height + (h - min_height base_height) = h by omega, h3] at hcut
    exact Bool.false_ne_true hcut
  · rw [he]
    refine ⟨hc, Nat.le_add_right .., by omega, fun h h1 h2 h3 => ?_⟩
    by_contra hlt
    push_neg at hlt
    have hcut := hmax (h - min_height base_height) (by omega) (by omega)
    rw [show min_height base_height + (h - min_height base_height) = h by omega, h3] at hcut
    exact Bool.false_ne_true hcut

/-- Witness for `first_clean_is_largest`: base height 10, threshold 5, the
oracle that is clean exactly for heights at most 7; the locator accepts a
clean height at least the floor. -/
theorem first_clean_is_largest_witness :
    is_text_cut_off 5 (capClean7 0 (find_clean_break 10 5 capClean7 0 10).1) = false ∧
    min_height 10 ≤ (find_clean_break 10 5 capClean7 0 10).1 := by
  have h := first_clean_is_largest 10 5 capClean7 0 10 (by decide)
    ⟨7, by decide, by decide, by decide⟩
  exact ⟨h.1, h.2.1⟩

/-- Claim C4: the returned height lies in
`[minHeight, min(baseHeight, maxCandidateHeight)]` whenever
`maxCandidateHeight ≥ minHeight`, and equals `maxCandidateHeight` exactly
when `maxCandidateHeight < minHeight`. -/
theorem accepted_height_range (base_height threshold : Nat)
    (capture : Nat → Nat → GrayImage) (current_top max_height : Nat) :
    (max_height < min_height base_height →
      (find_clean_break base_height threshold capture current_top max_height).1 = max_height) ∧
    (min_height base_height ≤ max_height →
      min_height base_height ≤
          (find_clean_break base_height threshold capture current_top max_height).1 ∧
        (find_clean_break base_height threshold capture current_top max_height).1 ≤
          min base_height max_height) := by
  constructor
  · intro h
    rw [find_clean_break_collapsed base_height threshold capture current_top max_height h]
    exact Nat.min_eq_left (by have := min_height_le_base base_height; omega)
  · intro h
    have hb := min_height_le_base base_height
    have hle := find_clean_break_fst_le base_height threshold capture current_top max_height
    constructor
    · rw [find_clean_break_eq]
      rcases clean_break_go_spec threshold capture current_top (min max_height base_height)
          (min_height base_height)
          (min max_height base_height + 1 - min_height base_height) with
        ⟨he, _⟩ | ⟨j, _, _, he, _⟩
      · rw [he]
        omega
      · rw [he]
        exact Nat.le_add_right ..
    · omega

/-- Witness for `accepted_height_range` at both branches: the collapsed case
(`max_height = 2 < 3 = minHeight`) and the regular case (`max_height = 10`). -/
theorem accepted_height_range_witness :
    (find_clean_break 10 5 capClean7 0 2).1 = 2 ∧
    (min_height 10 ≤ (find_clean_break 10 5 capClean7 0 10).1 ∧
      (find_clean_break 10 5 capClean7 0 10).1 ≤ min 10 10) :=
  ⟨(accepted_height_range 10 5 capClean7 0 2).1 (by decide),
   (accepted_height_range 10 5 capClean7 0 10).2 (by decide)⟩

/-- Claim C5: when `maxCandidateHeight < minHeight` the candidate range of
`find_clean_break` is empty, so the locator returns
`min(maxCandidateHeight, baseHeight)` unconditionally and performs zero
capture operations (hence zero truncation checks: each loop iteration
performs exactly one capture followed by one check). -/
theorem collapsed_range_forced_accept (base_height threshold : Nat)
    (capture : Nat → Nat → GrayImage) (current_top max_height : Nat)
    (h : max_height < min_height base_height) :
    find_clean_break base_height threshold capture current_top max_height =
      (min max_height base_height, 0) :=
  find_clean_break_collapsed base_height threshold capture current_top max_height h

/-- Witness for `collapsed_range_forced_accept`: remaining height 2 is below
the floor 3, so the result is `(2, 0)`. -/
theorem collapsed_range_forced_accept_witness :
    find_clean_break 10 5 capClean7 0 2 = (min 2 10, 0) :=
  collapsed_range_forced_accept 10 5 capClean7 0 2 (by decide)

/-- Claim C8: the locator always terminates (it is a total function of its
arguments) and performs at most `startHeight - minHeight + 1` captures, where
`startHeight = min(maxCandidateHeight, baseHeight)` (natural subtraction;
when the range is empty the count is zero). -/
theorem capture_count_bound (base_height threshold : Nat)
    (capture : Nat → Nat → GrayImage) (current_top max_height : Nat) :
    (find_clean_break base_height threshold capture current_top max_height).2 ≤
      min max_height base_height - min_height base_height + 1 := by
  rw [find_clean_break_eq]
  have := clean_break_go_count threshold capture current_top (min max_height base_height)
    (min_height base_height) (min max_height base_height + 1 - min_height base_height)
  omega

/-- Step equation for the pagination loop when the loop guard holds. -/
theorem process_html_go_succ_pos (base_height threshold : Nat)
    (capture : Nat → Nat → GrayImage) (T fuel t idx : Nat) (ht : t < T) :
    process_html_go base_height threshold capture T (fuel + 1) t idx =
      ((⟨idx, page_filename idx, t,
          (find_clean_break base_height threshold capture t (T - t)).1,
          binarize threshold
            (capture t (find_clean_break base_height threshold capture t (T - t)).1)⟩ : Page) ::
        (process_html_go base_height threshold capture T fuel
          (t + (find_clean_break base_height threshold capture t (T - t)).1) (idx + 1)).1,
       (process_html_go base_height threshold capture T fuel
          (t + (find_clean_break base_height threshold capture t (T - t)).1) (idx + 1)).2) := by
  simp [process_html_go, ht]

/-- Step equation for the pagination loop when the loop guard fails. -/
theorem process_html_go_succ_neg (base_height threshold : Nat)
    (capture : Nat → Nat → GrayImage) (T fuel t idx : Nat) (ht : ¬ t < T) :
    process_html_go base_height threshold capture T (fuel + 1) t idx = ([], idx) := by
  simp [process_html_go, ht]

/-- Loop invariant for the tiling property: starting at any `t ≤ T` with
enough fuel, the emitted slices tile `[t, T)`. -/
theorem pagination_tiles_aux (base_height threshold : Nat)
    (capture : Nat → Nat → GrayImage) (T : Nat)
    (H : ∀ top, top < T →
      1 ≤ (find_clean_break base_height threshold capture top (T - top)).1) :
    ∀ fuel t idx, t ≤ T → T - t ≤ fuel →
      tiling t T (process_html_go base_height threshold capture T fuel t idx).1 = true := by
  intro fuel
  induction fuel with
  | zero =>
    intro t idx h1 h2
    have ht : t = T := by omega
    subst ht
    simp [process_html_go, tiling]
  | succ fuel ih =>
    intro t idx h1 h2
    by_cases ht : t < T
    · have hpos := H t ht
      have hle := find_clean_break_fst_le base_height threshold capture t (T - t)
      rw [process_html_go_succ_pos base_height threshold capture T fuel t idx ht]
      have hrec := ih (t + (find_clean_break base_height threshold capture t (T - t)).1)
        (idx + 1) (by omega) (by omega)
      simp [tiling, hrec]
      omega
    · rw [process_html_go_succ_neg base_height threshold capture T fuel t idx ht]
      simp [tiling]
      omega

/-- Claim C3: under the forward-progress precondition (every height the
locator returns on this document is at least 1), the `while current_top <
total_height` loop of `process_html` terminates within fuel `total_height`
and its accepted (top, height) slices exactly tile `[0, total_height)`:
the first slice starts at 0, consecutive slices are contiguous (no gap, no
overlap, hence strictly increasing tops), every slice has positive height,
and the last slice ends exactly at `total_height`. -/
theorem pagination_tiles (base_height threshold : Nat)
    (capture : Nat → Nat → GrayImage) (total_height start_idx : Nat)
    (H : ∀ top, top < total_height →
      1 ≤ (find_clean_break base_height threshold capture top (total_height - top)).1) :
    tiling 0 total_height
      (process_html base_height threshold capture total_height start_idx).1 = true :=
  pagination_tiles_aux base_height threshold capture total_height H total_height 0 start_idx
    (Nat.zero_le _) (by omega)

/-- Witness for `pagination_tiles`: a 20-pixel document rendered by
`capClean7` splits into slices (0,7), (7,7), (14,6) which tile `[0, 20)`. -/
theorem pagination_tiles_witness :
    tiling 0 20 (process_html 10 5 capClean7 20 0).1 = true :=
  pagination_tiles 10 5 capClean7 20 0 (by decide)

/-- An initial segment `[0, m)` followed by `[m, m + n)` is `[0, m + n)`. -/
theorem range_append_range' (m n : Nat) :
    List.range m ++ List.range' m n = List.range (m + n) := by
  rw [List.range_eq_range', List.range_eq_range', Nat.add_comm m n]
  simpa using List.range'_append 0 m n 1

/-- Loop invariant for the page index: the pagination loop started at index
`idx` emits pages whose indices are `idx, idx + 1, ...` (one increment per
page), whose file names are the zero-padded names of those indices, and
returns `idx` plus the number of pages emitted. -/
theorem process_html_go_idx_spec (base_height threshold : Nat)
    (capture : Nat → Nat → GrayImage) (T : Nat) :
    ∀ fuel t idx,
      (process_html_go base_height threshold capture T fuel t idx).2 =
          idx + (process_html_go base_height threshold capture T fuel t idx).1.length ∧
        (process_html_go base_height threshold capture T fuel t idx).1.map Page.idx =
          List.range' idx (process_html_go base_height threshold capture T fuel t idx).1.length ∧
        (process_html_go base_height threshold capture T fuel t idx).1.map Page.filename =
          (List.range' idx
            (process_html_go base_height threshold capture T fuel t idx).1.length).map
            page_filename := by
  intro fuel
  induction fuel with
  | zero =>
    intro t idx
    simp [process_html_go]
  | succ fuel ih =>
    intro t idx
    by_cases ht : t < T
    · rw [process_html_go_succ_pos base_height threshold capture T fuel t idx ht]
      obtain ⟨h1, h2, h3⟩ :=
        ih (t + (find_clean_break base_height threshold capture t (T - t)).1) (idx + 1)
      refine ⟨?_, ?_, ?_⟩
      · simp only [List.length_cons]
        rw [h1]
        omega
      · simp only [List.map_cons, List.length_cons, List.range'_succ]
        rw [h2]
      · simp only [List.map_cons, List.length_cons, List.range'_succ]
        rw [h3]
    · rw [process_html_go_succ_neg base_height threshold capture T fuel t idx ht]
      simp

/-- `process_html` started at index `s` returns `s` plus the number of pages
it emits, with page indices `s, s + 1, ...` and matching file names. -/
theorem process_html_idx_spec (base_height threshold : Nat)
    (capture : Nat → Nat → GrayImage) (T s : Nat) :
    (process_html base_height threshold capture T s).2 =
        s + (process_html base_height threshold capture T s).1.length ∧
      (process_html base_height threshold capture T s).1.map Page.idx =
        List.range' s (process_html base_height threshold capture T s).1.length ∧
      (process_html base_height threshold capture T s).1.map Page.filename =
        (List.range' s (process_html base_height threshold capture T s).1.length).map
          page_filename :=
  process_html_go_idx_spec base_height threshold capture T T 0 s

/-- Invariant of the document fold of `process`: if the accumulated pages
have indices `0, ..., acc.2 - 1` with matching file names, the same holds
after processing any further documents. -/
theorem process_fold_spec (base_height threshold : Nat) :
    ∀ (docs : List Doc) (acc : List Page × Nat),
      acc.2 = acc.1.length →
      acc.1.map Page.idx = List.range acc.2 →
      acc.1.map Page.filename = (List.range acc.2).map page_filename →
      (docs.foldl (fun acc doc =>
          let r := process_html base_height threshold doc.capture doc.total_height acc.2
          (acc.1 ++ r.1, r.2)) acc).2 =
          (docs.foldl (fun acc doc =>
            let r := process_html base_height threshold doc.capture doc.total_height acc.2
            (acc.1 ++ r.1, r.2)) acc).1.length ∧
        (docs.foldl (fun acc doc =>
          let r := process_html base_height threshold doc.capture doc.total_height acc.2
          (acc.1 ++ r.1, r.2)) acc).1.map Page.idx =
          List.range (docs.foldl (fun acc doc =>
            let r := process_html base_height threshold doc.capture doc.total_height acc.2
            (acc.1 ++ r.1, r.2)) acc).2 ∧
        (docs.foldl (fun acc doc =>
          let r := process_html base_height threshold doc.capture doc.total_height acc.2
          (acc.1 ++ r.1, r.2)) acc).1.map Page.filename =
          (List.range (docs.foldl (fun acc doc =>
            let r := process_html base_height threshold doc.capture doc.total_height acc.2
            (acc.1 ++ r.1, r.2)) acc).2).map page_filename := by
  intro docs
  induction docs with
  | nil =>
    intro acc h1 h2 h3
    exact ⟨h1, h2, h3⟩
  | cons d ds ih =>
    intro acc h1 h2 h3
    simp only [List.foldl_cons]
    obtain ⟨g1, g2, g3⟩ :=
      process_html_idx_spec base_height threshold d.capture d.total_height acc.2
    refine ih _ ?_ ?_ ?_
    · simp only [List.length_append]
      rw [g1, h1]
    · simp only [List.map_append]
      rw [h2, g2, g1, h1]
      rw [← h1, range_append_range']
    · simp only [List.map_append]
      rw [h3, g3, g1]
      rw [← List.map_append, range_append_range']

/-- Claim C6: across the whole run, the global page index starts at 0 and is
incremented by exactly 1 per emitted page; the index returned by processing
one document is the start index of the next, so the emitted indices form the
contiguous range `0 .. N - 1` where `N` is both the final counter and the
total number of pages, and every page's file name is the zero-padded name of
its own index. -/
theorem global_index_contiguous (base_height threshold : Nat) (docs : List Doc) :
    (process base_height threshold docs).2 =
        (process base_height threshold docs).1.length ∧
      (process base_height threshold docs).1.map Page.idx =
        List.range (process base_height threshold docs).2 ∧
      (process base_height threshold docs).1.map Page.filename =
        (List.range (process base_height threshold docs).2).map page_filename := by
  have h := process_fold_spec base_height threshold docs ([], 0) rfl (by simp) (by simp)
  simpa [process] using h

/-- Every page the pagination loop emits carries the binarization of the
final capture taken at the page's own (top, height). -/
theorem process_html_go_image (base_height threshold : Nat)
    (capture : Nat → Nat → GrayImage) (T : Nat) :
    ∀ fuel t idx p, p ∈ (process_html_go base_height threshold capture T fuel t idx).1 →
      p.image = binarize threshold (capture p.top p.height) := by
  intro fuel
  induction fuel with
  | zero =>
    intro t idx p hp
    simp [process_html_go] at hp
  | succ fuel ih =>
    intro t idx p hp
    by_cases ht : t < T
    · rw [process_html_go_succ_pos base_height threshold capture T fuel t idx ht] at hp
      rcases List.mem_cons.mp hp with h | h
      · subst h
        rfl
      · exact ih _ _ p h
    · rw [process_html_go_succ_neg base_height threshold capture T fuel t idx ht] at hp
      simp at hp

/-- Claim C7: each pixel of each emitted page image is the thresholding of
the corresponding pixel of the page's final grayscale capture: white (255)
when the capture pixel is strictly above the threshold, black (0)
otherwise. -/
theorem emitted_pages_binarized (base_height threshold : Nat)
    (capture : Nat → Nat → GrayImage) (total_height start_idx : Nat) (p : Page)
    (hp : p ∈ (process_html base_height threshold capture total_height start_idx).1)
    (x y : Nat) :
    p.image.pixel x y =
      if threshold < (capture p.top p.height).pixel x y then 255 else 0 := by
  have h := process_html_go_image base_height threshold capture total_height
    total_height 0 start_idx p hp
  rw [h]
  rfl

/-- Witness for `emitted_pages_binarized`: the single page of a 5-pixel
document rendered by `capClean7` (all pixels 255 at height 5 > threshold 5)
is all white. -/
theorem emitted_pages_binarized_witness : pgW.image.pixel 0 0 = 255 := by
  have hmem : pgW ∈ (process_html 10 5 capClean7 5 0).1 := by
    rw [show (process_html 10 5 capClean7 5 0).1 = [pgW] from rfl]
    exact List.mem_singleton.mpr rfl
  have h := emitted_pages_binarized 10 5 capClean7 5 0 pgW hmem 0 0
  rw [h]
  decide

/-- Claim C9: the output-directory precondition of `main`: when the directory
exists and has at least one entry, the run is rejected with the parser error
before the splitter is even constructed, so no processing happens and no page
is produced; when the directory does not exist or is empty, the check passes
and the run proceeds to `process`. -/
theorem outdir_precondition (outdir_exists : Bool) (entries : List String)
    (base_height threshold : Nat) (docs : List Doc) :
    (outdir_exists = true → entries ≠ [] →
      main_run outdir_exists entries base_height threshold docs =
        Except.error "Output directory must be empty") ∧
    (outdir_exists = false ∨ entries = [] →
      main_run outdir_exists entries base_height threshold docs =
        Except.ok (process base_height threshold docs)) := by
  constructor
  · intro h1 h2
    subst h1
    cases entries with
    | nil => exact absurd rfl h2
    | cons e es => simp [main_run, outdir_rejected]
  · intro h
    rcases h with h | h
    · subst h
      simp [main_run, outdir_rejected]
    · subst h
      simp [main_run, outdir_rejected]

/-- Witness for `outdir_precondition`: a non-empty existing directory is
rejected; a missing directory passes. -/
theorem outdir_precondition_witness :
    main_run true ["page.png"] 940 220 [] =
        Except.error "Output directory must be empty" ∧
      main_run false [] 940 220 [] = Except.ok (process 940 220 []) :=
  ⟨(outdir_precondition true ["page.png"] 940 220 []).1 rfl (by simp),
   (outdir_precondition false [] 940 220 []).2 (Or.inl rfl)⟩

/-- Claim C10: at the threshold boundary the truncation check and the
binarizer disagree.  A capture whose bottom-row pixels are all at or above
the threshold is accepted as clean (`is_text_cut_off` tests `pixel <
threshold`), yet every pixel whose value equals the threshold exactly is
rendered black (0) by the binarizer, which requires `pixel > threshold` for
white — so an accepted page can still show black pixels on its bottom row. -/
theorem threshold_boundary_disagreement (threshold : Nat) (img : GrayImage)
    (hclean : ∀ p ∈ bottom_row img, threshold ≤ p) :
    is_text_cut_off threshold img = false ∧
    ∀ x y, img.pixel x y = threshold → (binarize threshold img).pixel x y = 0 := by
  constructor
  · simp only [is_text_cut_off]
    rw [List.any_eq_false]
    intro p hp
    simpa using Nat.not_lt.mpr (hclean p hp)
  · intro x y hxy
    simp [binarize, hxy]

/-- Witness for `threshold_boundary_disagreement`: a one-pixel image at
exactly the default threshold 220 is accepted as clean but binarizes to
black. -/
theorem threshold_boundary_disagreement_witness :
    is_text_cut_off 220 img220 = false ∧ (binarize 220 img220).pixel 0 0 = 0 := by
  have h := threshold_boundary_disagreement 220 img220 (by decide)
  exact ⟨h.1, h.2 0 0 rfl⟩

end EpubToImg
